import Mathlib

/-!
Shallow embedding of the concurrent health-check engine
(`internal/checker/checker.go` and its data types).

Network I/O, goroutine scheduling and context cancellation are modelled by
oracles: a `ProbeOutcome` records what a single HTTP attempt observed
(request-creation failure, transport failure, or a response), a `RetryOracle`
records, per loop iteration, whether the context was seen cancelled at each
checkpoint and what the probe observed, and a `TaskOracle` additionally
records whether a batch task observed cancellation while waiting for its
admission-semaphore slot.  Results are collected by original index, exactly
as the Go code writes `results[r.idx] = r.result`, so every interleaving of
completion order is covered by quantifying over the oracles.
-/

namespace HC

/-- Endpoint mirrors `checker.Endpoint`: one probe target plus its policy.
`timeout` and durations are modelled in nanoseconds as `Nat`; `retries` is a
Go `int`, hence `Int` (it can be negative). -/
structure Endpoint where
  name : String
  url : String
  timeout : Nat
  retries : Int
  expectedStatus : Int
  followRedirects : Bool
  insecure : Bool
  headers : List (String × String)
  deriving Repr, DecidableEq

/-- Result mirrors `checker.Result`; field defaults are the Go zero values,
so `{}` is the zero-value `Result`. `error` is the error's message string,
`none` standing for a nil error. -/
structure Result where
  name : String := ""
  url : String := ""
  healthy : Bool := false
  statusCode : Option Int := none
  latency : Nat := 0
  error : Option String := none
  deriving Repr, DecidableEq

/-- Summary mirrors `checker.Summary`. -/
structure Summary where
  total : Nat := 0
  healthy : Nat := 0
  unhealthy : Nat := 0
  duration : Nat := 0
  deriving Repr, DecidableEq

/-- BatchResult mirrors `checker.BatchResult` (timestamp as `Nat`). -/
structure BatchResult where
  timestamp : Nat
  summary : Summary
  results : List Result
  deriving Repr, DecidableEq

/-- Whether the character list starting at the second argument begins with
the first argument (pattern). -/
def strLeads : List Char → List Char → Bool
  | [], _ => true
  | _ :: _, [] => false
  | p :: ps, c :: cs => p == c && strLeads ps cs

/-- Whether the pattern (first argument) occurs inside the second list. -/
def strContainsAux : List Char → List Char → Bool
  | pat, [] => strLeads pat []
  | pat, c :: cs => strLeads pat (c :: cs) || strContainsAux pat cs

/-- Go's `strings.Contains(s, pat)`. -/
def strContains (s pat : String) : Bool :=
  strContainsAux pat.data s.data

/-- categorizeError mirrors `(*Checker).categorizeError`: first-match-wins
substring classification of a raw transport error message.  Go's
`fmt.Errorf("cat: %w", err)` produces the message `"cat: " ++ err.Error()`. -/
def categorizeError (errStr : String) : String :=
  if strContains errStr "no such host" then
    "DNS resolution failed: " ++ errStr
  else if strContains errStr "connection refused" then
    "connection refused: " ++ errStr
  else if strContains errStr "context deadline exceeded" then
    "connection timeout: " ++ errStr
  else if strContains errStr "context canceled" then
    "request canceled: " ++ errStr
  else if strContains errStr "timeout" then
    "request timeout: " ++ errStr
  else if strContains errStr "certificate" then
    "SSL certificate error: " ++ errStr
  else
    errStr

/-- The classifier's category table in the spec's precedence order
(pattern, category), used only by the spec-side restatement below. -/
def errorCategories : List (String × String) :=
  [("no such host", "DNS resolution failed"),
   ("connection refused", "connection refused"),
   ("context deadline exceeded", "connection timeout"),
   ("context canceled", "request canceled"),
   ("timeout", "request timeout"),
   ("certificate", "SSL certificate error")]

/-- Spec-side restatement of the classifier, written from the spec's words:
find the first category whose pattern occurs in the message and tag with it,
otherwise pass the message through unchanged. -/
def categorizeErrorSpec (errStr : String) : String :=
  match errorCategories.find? (fun p => strContains errStr p.1) with
  | some p => p.2 ++ ": " ++ errStr
  | none => errStr

/-- What one HTTP attempt observed: `http.NewRequestWithContext` failing
(malformed URL), `client.Do` failing after `elapsed` time, or a response
with some status code after `elapsed` time. -/
inductive ProbeOutcome where
  | reqError (msg : String)
  | transportError (msg : String) (elapsed : Nat)
  | response (status : Int) (elapsed : Nat)
  deriving Repr, DecidableEq

/-- CheckWithContext mirrors `(*Checker).CheckWithContext` for a given
observed outcome of the single attempt. -/
def CheckWithContext (ep : Endpoint) (o : ProbeOutcome) : Result :=
  let result : Result := { name := ep.name, url := ep.url }
  match o with
  | .reqError msg =>
      { result with error := some ("failed to create request: " ++ msg) }
  | .transportError msg elapsed =>
      { result with latency := elapsed, error := some (categorizeError msg) }
  | .response status elapsed =>
      let result := { result with latency := elapsed, statusCode := some status }
      if status = ep.expectedStatus then
        { result with healthy := true }
      else
        { result with error := some ("unexpected status code: got " ++
            toString status ++ ", expected " ++ toString ep.expectedStatus) }

/-- Per-retry-loop oracle: `cancelledBefore i` is whether `ctx.Done()` was
observed at the check preceding attempt `i`; `cancelledDuringWait i` whether
the context was cancelled during the 500ms wait after attempt `i`;
`outcome i` what attempt `i` observed; `ctxErr` the message of `ctx.Err()`. -/
structure RetryOracle where
  cancelledBefore : Nat → Bool
  cancelledDuringWait : Nat → Bool
  outcome : Nat → ProbeOutcome
  ctxErr : String

/-- The body of `CheckWithRetryContext`'s `for` loop: `prev` is the current
value of the `result` variable, `i` the loop counter, `fuel` the number of
iterations left (`ep.Retries - i + 1` in Go terms).  Returns the final
`result` together with the number of probe attempts performed. -/
def retryLoop (ep : Endpoint) (o : RetryOracle) : Result → Nat → Nat → Result × Nat
  | prev, _, 0 => (prev, 0)
  | prev, i, fuel + 1 =>
    if o.cancelledBefore i then
      ({ prev with error := some o.ctxErr }, 0)
    else
      let r := CheckWithContext ep (o.outcome i)
      if r.healthy then (r, 1)
      else
        match fuel with
        | 0 => (r, 1)
        | fuel' + 1 =>
          if o.cancelledDuringWait i then
            ({ r with error := some o.ctxErr }, 1)
          else
            let rest := retryLoop ep o r (i + 1) (fuel' + 1)
            (rest.1, rest.2 + 1)

/-- CheckWithRetryContext instrumented with the probe-attempt count: the Go
loop runs while `i <= ep.Retries`, i.e. `(ep.Retries + 1).toNat` times when
no early return fires, starting from the zero-value `result`. -/
def CheckWithRetryContextC (ep : Endpoint) (o : RetryOracle) : Result × Nat :=
  retryLoop ep o {} 0 (ep.retries + 1).toNat

/-- CheckWithRetryContext mirrors `(*Checker).CheckWithRetryContext`. -/
def CheckWithRetryContext (ep : Endpoint) (o : RetryOracle) : Result :=
  (CheckWithRetryContextC ep o).1

/-- Index of the first attempt, from `i` within `fuel` remaining attempts,
whose probed `Result` is healthy. -/
def firstHealthyFrom (ep : Endpoint) (o : RetryOracle) : Nat → Nat → Option Nat
  | _, 0 => none
  | i, fuel + 1 =>
    if (CheckWithContext ep (o.outcome i)).healthy then some i
    else firstHealthyFrom ep o (i + 1) fuel

/-- Per-batch-task oracle: whether the task observed parent-context
cancellation while waiting to acquire its semaphore slot, and the retry
oracle it uses once admitted. -/
structure TaskOracle where
  cancelledAtSem : Bool
  retry : RetryOracle

/-- One batch task's contribution, with its probe-attempt count: the Go
`select` either records `Result{Name, URL, Error: ctx.Err()}` without ever
probing, or runs the retry loop. -/
def taskResultC (ep : Endpoint) (t : TaskOracle) : Result × Nat :=
  if t.cancelledAtSem then
    ({ name := ep.name, url := ep.url, error := some t.retry.ctxErr }, 0)
  else
    CheckWithRetryContextC ep t.retry

/-- The `Result` a batch task stores at its index. -/
def taskResult (ep : Endpoint) (t : TaskOracle) : Result :=
  (taskResultC ep t).1

/-- calculateSummary mirrors `(*Checker).calculateSummary`: start from
`{Total: len(results), Duration: duration}` and bump a counter per result. -/
def calculateSummary (results : List Result) (duration : Nat) : Summary :=
  results.foldl
    (fun s r =>
      if r.healthy then { s with healthy := s.healthy + 1 }
      else { s with unhealthy := s.unhealthy + 1 })
    { total := results.length, duration := duration }

/-- CheckAllWithContext mirrors `(*Checker).CheckAllWithContext`: every
task writes its `Result` at its original index `i`, so the collected slice
is the index-ordered list of task results whatever the completion order;
`sched i` is task `i`'s oracle, `batchDuration` the observed wall time. -/
def CheckAllWithContext (endpoints : List Endpoint) (sched : Nat → TaskOracle)
    (startTime batchDuration : Nat) : BatchResult :=
  let results := endpoints.enum.map (fun p => taskResult p.2 (sched p.1))
  { timestamp := startTime
    summary := calculateSummary results batchDuration
    results := results }

/-- getClientKey mirrors the Go function of the same name. -/
def getClientKey (insecure followRedirects : Bool) : String :=
  let security := if insecure then "insecure" else "secure"
  let redirect := if !followRedirects then "nofollow" else "follow"
  security ++ "-" ++ redirect

/-- The four possible cache keys. -/
def allClientKeys : List String :=
  ["secure-follow", "secure-nofollow", "insecure-follow", "insecure-nofollow"]

/-- An `http.Client` as configured by `getClient`: the TLS-verification
setting and whether `CheckRedirect` stops at the first redirect. -/
structure GoClient where
  insecureSkipVerify : Bool
  useLastResponse : Bool
  deriving Repr, DecidableEq

/-- The client `getClient` constructs on a cache miss for `ep`. -/
def mkClient (ep : Endpoint) : GoClient :=
  { insecureSkipVerify := ep.insecure, useLastResponse := !ep.followRedirects }

/-- Lookup in the client cache (Go map read). -/
def lookupClient : List (String × GoClient) → String → Option GoClient
  | [], _ => none
  | (k, c) :: rest, key => if k = key then some c else lookupClient rest key

/-- getClient mirrors `(*Checker).getClient` with the cache as explicit
state (the Go locks make the map accesses sequentially consistent):
return the cached client for the endpoint's key, or construct, store and
return a new one. -/
def getClient (clients : List (String × GoClient)) (ep : Endpoint) :
    GoClient × List (String × GoClient) :=
  let key := getClientKey ep.insecure ep.followRedirects
  match lookupClient clients key with
  | some client => (client, clients)
  | none =>
    let client := mkClient ep
    (client, (key, client) :: clients)

/-- Run a sequence of `getClient` calls, threading the cache. -/
def runClients : List Endpoint → List (String × GoClient) → List (String × GoClient)
  | [], st => st
  | ep :: rest, st => runClients rest (getClient st ep).2

/-- Cache well-formedness: pairwise-distinct keys, all among the four
possible key strings. -/
def CacheWF (st : List (String × GoClient)) : Prop :=
  (st.map Prod.fst).Nodup ∧ ∀ k ∈ st.map Prod.fst, k ∈ allClientKeys

/-- A task preserves its endpoint's URL in its stored `Result` when it was
either cancelled at the semaphore (that path copies name and URL) or ran a
retry loop that performed at least one attempt (retries non-negative and no
cancellation observed before the first attempt). -/
def preservesURL (ep : Endpoint) (t : TaskOracle) : Prop :=
  t.cancelledAtSem = true ∨
    (t.retry.cancelledBefore 0 = false ∧ 0 ≤ ep.retries)

/-- A concrete endpoint used by witnesses and counterexamples. -/
def ep0 : Endpoint :=
  { name := "a", url := "http://a", timeout := 1000000000, retries := 0,
    expectedStatus := 200, followRedirects := true, insecure := false,
    headers := [] }

/-- `ep0` with two retries. -/
def ep3 : Endpoint :=
  { ep0 with retries := 2 }

/-- An oracle observing no cancellation and a 200 response on every attempt. -/
def quietOracle : RetryOracle :=
  { cancelledBefore := fun _ => false, cancelledDuringWait := fun _ => false,
    outcome := fun _ => .response 200 5, ctxErr := "context canceled" }

/-- An oracle observing cancellation at every pre-attempt check. -/
def cancelAllOracle : RetryOracle :=
  { quietOracle with cancelledBefore := fun _ => true }

/-- Batch schedule: no cancellation anywhere. -/
def schedQuiet : Nat → TaskOracle :=
  fun _ => { cancelledAtSem := false, retry := quietOracle }

/-- Batch schedule: every task observes cancellation at the semaphore. -/
def schedSemCancel : Nat → TaskOracle :=
  fun _ => { cancelledAtSem := true, retry := quietOracle }

/-- Batch schedule: every task acquires a slot but then observes
cancellation at the retry loop's pre-attempt check. -/
def schedPreCancel : Nat → TaskOracle :=
  fun _ => { cancelledAtSem := false, retry := cancelAllOracle }

/-- A single probe always records the endpoint's URL. -/
theorem CheckWithContext_url (ep : Endpoint) (o : ProbeOutcome) :
    (CheckWithContext ep o).url = ep.url := by
  cases o <;> first
  | rfl
  | (simp only [CheckWithContext]; split <;> rfl)

/-- A single probe always records the endpoint's name. -/
theorem CheckWithContext_name (ep : Endpoint) (o : ProbeOutcome) :
    (CheckWithContext ep o).name = ep.name := by
  cases o <;> first
  | rfl
  | (simp only [CheckWithContext]; split <;> rfl)

/-- The retry loop preserves the URL of its running `result` value. -/
theorem retryLoop_url (ep : Endpoint) (o : RetryOracle) :
    ∀ fuel i prev, prev.url = ep.url → (retryLoop ep o prev i fuel).1.url = ep.url := by
  intro fuel
  induction fuel with
  | zero => intro i prev h; simpa [retryLoop] using h
  | succ f ih =>
    intro i prev h
    rw [retryLoop]
    by_cases hc : o.cancelledBefore i
    · simpa [hc] using h
    · simp only [hc, if_false, Bool.false_eq_true]
      by_cases hh : (CheckWithContext ep (o.outcome i)).healthy
      · simpa [hh] using CheckWithContext_url ep (o.outcome i)
      · cases f with
        | zero => simpa [hh] using CheckWithContext_url ep (o.outcome i)
        | succ f' =>
          by_cases hw : o.cancelledDuringWait i
          · simpa [hh, hw] using CheckWithContext_url ep (o.outcome i)
          · simpa [hh, hw] using
              ih (i + 1) (CheckWithContext ep (o.outcome i)) (CheckWithContext_url ep (o.outcome i))

/-- After a pre-attempt check that saw no cancellation, the retry loop's
result carries the endpoint's URL whatever `prev` held. -/
theorem retryLoop_url_start (ep : Endpoint) (o : RetryOracle) (i f : Nat) (prev : Result)
    (hb : o.cancelledBefore i = false) :
    (retryLoop ep o prev i (f + 1)).1.url = ep.url := by
  rw [retryLoop]
  simp only [hb, Bool.false_eq_true, if_false]
  by_cases hh : (CheckWithContext ep (o.outcome i)).healthy
  · simpa [hh] using CheckWithContext_url ep (o.outcome i)
  · cases f with
    | zero => simpa [hh] using CheckWithContext_url ep (o.outcome i)
    | succ f' =>
      by_cases hw : o.cancelledDuringWait i
      · simpa [hh, hw] using CheckWithContext_url ep (o.outcome i)
      · simpa [hh, hw] using
          retryLoop_url ep o (f' + 1) (i + 1) (CheckWithContext ep (o.outcome i))
            (CheckWithContext_url ep (o.outcome i))

/-- When the retry loop performs at least one attempt, its result carries
the endpoint's URL. -/
theorem CheckWithRetryContext_url (ep : Endpoint) (o : RetryOracle)
    (hb : o.cancelledBefore 0 = false) (h0 : 0 ≤ ep.retries) :
    (CheckWithRetryContext ep o).url = ep.url := by
  obtain ⟨f, hf⟩ : ∃ f, (ep.retries + 1).toNat = f + 1 := ⟨ep.retries.toNat, by omega⟩
  unfold CheckWithRetryContext CheckWithRetryContextC
  rw [hf]
  exact retryLoop_url_start ep o 0 f {} hb

/-- A task whose oracle satisfies `preservesURL` records its endpoint's URL. -/
theorem taskResult_url (ep : Endpoint) (t : TaskOracle) (h : preservesURL ep t) :
    (taskResult ep t).url = ep.url := by
  by_cases hs : t.cancelledAtSem
  · simp [taskResult, taskResultC, hs]
  · rcases h with h | ⟨hb, h0⟩
    · exact absurd h (by simp [hs])
    · simpa [taskResult, taskResultC, hs] using CheckWithRetryContext_url ep t.retry hb h0

/-- The counter fold of `calculateSummary`, described by filters. -/
theorem summary_foldl (l : List Result) (s : Summary) :
    l.foldl
      (fun s r =>
        if r.healthy then { s with healthy := s.healthy + 1 }
        else { s with unhealthy := s.unhealthy + 1 }) s =
    { total := s.total, duration := s.duration,
      healthy := s.healthy + (l.filter (fun r => r.healthy)).length,
      unhealthy := s.unhealthy + (l.filter (fun r => !r.healthy)).length } := by
  induction l generalizing s with
  | nil => simp
  | cons r rest ih =>
    cases hr : r.healthy <;>
      simp [hr, ih, List.filter_cons, Summary.mk.injEq] <;> omega

/-- calculateSummary counts exactly the healthy and unhealthy results. -/
theorem calculateSummary_spec (l : List Result) (d : Nat) :
    calculateSummary l d =
      { total := l.length, duration := d,
        healthy := (l.filter (fun r => r.healthy)).length,
        unhealthy := (l.filter (fun r => !r.healthy)).length } := by
  unfold calculateSummary
  rw [summary_foldl]
  simp

/-- Splitting a result list by healthiness preserves total length. -/
theorem filter_healthy_split (l : List Result) :
    (l.filter (fun r => r.healthy)).length + (l.filter (fun r => !r.healthy)).length
      = l.length := by
  induction l with
  | nil => rfl
  | cons r rest ih =>
    cases hr : r.healthy <;> simp [List.filter_cons, hr] <;> omega

/-- C2: for every input list of endpoints (and every schedule of the
concurrent tasks), the batch Summary satisfies healthy + unhealthy = total,
total equals the number of input endpoints, and the healthy (resp.
unhealthy) counter counts exactly the Results with `healthy` true (resp.
false). -/
theorem C2_summary_invariant (endpoints : List Endpoint) (sched : Nat → TaskOracle)
    (t0 d : Nat) :
    (CheckAllWithContext endpoints sched t0 d).summary.healthy +
        (CheckAllWithContext endpoints sched t0 d).summary.unhealthy =
      (CheckAllWithContext endpoints sched t0 d).summary.total ∧
    (CheckAllWithContext endpoints sched t0 d).summary.total = endpoints.length ∧
    (CheckAllWithContext endpoints sched t0 d).summary.healthy =
      ((CheckAllWithContext endpoints sched t0 d).results.filter
        (fun r => r.healthy)).length ∧
    (CheckAllWithContext endpoints sched t0 d).summary.unhealthy =
      ((CheckAllWithContext endpoints sched t0 d).results.filter
        (fun r => !r.healthy)).length := by
  have hsplit := filter_healthy_split (endpoints.enum.map (fun p => taskResult p.2 (sched p.1)))
  simp only [CheckAllWithContext, calculateSummary_spec, List.length_map,
    List.enum_length] at hsplit ⊢
  exact ⟨hsplit, trivial, trivial, trivial⟩

/-- C5: the error classifier agrees everywhere with the spec's first-match-
wins precedence table (DNS, connection refused, deadline exceeded, context
canceled, generic timeout, certificate, otherwise unchanged). -/
theorem C5_classifier_precedence (e : String) :
    categorizeError e = categorizeErrorSpec e := by
  unfold categorizeError categorizeErrorSpec errorCategories
  cases h1 : strContains e "no such host" <;>
  cases h2 : strContains e "connection refused" <;>
  cases h3 : strContains e "context deadline exceeded" <;>
  cases h4 : strContains e "context canceled" <;>
  cases h5 : strContains e "timeout" <;>
  cases h6 : strContains e "certificate" <;>
    simp [List.find?, h1, h2, h3, h4, h5, h6]

/-- C6: when a response is received, the Result records its status code, is
healthy exactly when the code equals the endpoint's expected status, and
otherwise carries the status-mismatch error naming both codes. -/
theorem C6_status_mismatch (ep : Endpoint) (code : Int) (elapsed : Nat) :
    (CheckWithContext ep (.response code elapsed)).statusCode = some code ∧
    ((CheckWithContext ep (.response code elapsed)).healthy = true ↔
      code = ep.expectedStatus) ∧
    (CheckWithContext ep (.response code elapsed)).error =
      (if code = ep.expectedStatus then none
       else some ("unexpected status code: got " ++ toString code ++
         ", expected " ++ toString ep.expectedStatus)) := by
  by_cases h : code = ep.expectedStatus <;> simp [CheckWithContext, h]

/-- C7 counterexample: a malformed-URL failure whose message contains
"timeout" is returned as an unclassified "failed to create request" error
with zero latency, not as the classifier's output ("request timeout: ..."),
refuting the claim that malformed-URL failures get a classified error and
an elapsed latency. -/
theorem C7_counterexample :
    (CheckWithContext ep0 (.reqError "parse URL: bad timeout value")).error
        = some "failed to create request: parse URL: bad timeout value" ∧
    categorizeError "parse URL: bad timeout value"
        = "request timeout: parse URL: bad timeout value" ∧
    (CheckWithContext ep0 (.reqError "parse URL: bad timeout value")).error
        ≠ some (categorizeError "parse URL: bad timeout value") ∧
    (CheckWithContext ep0 (.reqError "parse URL: bad timeout value")).latency = 0 := by
  refine ⟨rfl, by decide, ?_, rfl⟩
  intro h
  simp only [CheckWithContext] at h
  rw [show categorizeError "parse URL: bad timeout value"
      = "request timeout: parse URL: bad timeout value" from by decide] at h
  exact absurd (Option.some.inj h) (by decide)

/-- C7 amended: a transport failure of the executed request yields an
unhealthy Result with no status code, the classified error and the elapsed
latency; a request-creation failure (malformed URL) yields an unhealthy
Result with no status code, an unclassified "failed to create request"
error and zero latency. -/
theorem C7_transport_failure (ep : Endpoint) (msg : String) (elapsed : Nat) :
    CheckWithContext ep (.transportError msg elapsed) =
      { name := ep.name, url := ep.url, healthy := false, statusCode := none,
        latency := elapsed, error := some (categorizeError msg) } ∧
    CheckWithContext ep (.reqError msg) =
      { name := ep.name, url := ep.url, healthy := false, statusCode := none,
        latency := 0, error := some ("failed to create request: " ++ msg) } :=
  ⟨rfl, rfl⟩

/-- C9: a single probe's Result is healthy only with the expected status
code present and a nil error; a Result lacking a status code is never
healthy. -/
theorem C9_healthy_result_invariant (ep : Endpoint) (o : ProbeOutcome) :
    ((CheckWithContext ep o).healthy = true →
      (CheckWithContext ep o).statusCode = some ep.expectedStatus ∧
      (CheckWithContext ep o).error = none) ∧
    ((CheckWithContext ep o).statusCode = none →
      (CheckWithContext ep o).healthy = false) := by
  cases o with
  | reqError msg => simp [CheckWithContext]
  | transportError msg t => simp [CheckWithContext]
  | response code t =>
    by_cases h : code = ep.expectedStatus <;> simp [CheckWithContext, h]

/-- C10: a negative retry count makes the retry loop run zero iterations and
return the zero-value Result (empty name and URL, unhealthy, no status code,
no error) with zero probe attempts. -/
theorem C10_negative_retries (ep : Endpoint) (o : RetryOracle)
    (h : ep.retries < 0) :
    CheckWithRetryContextC ep o =
      ({ name := "", url := "", healthy := false, statusCode := none,
         latency := 0, error := none }, 0) := by
  unfold CheckWithRetryContextC
  rw [show (ep.retries + 1).toNat = 0 from by omega]
  rfl

/-- Witness for C10 at a concrete endpoint with retries = -1. -/
theorem C10_negative_retries_witness :
    ({ ep0 with retries := -1 } : Endpoint).retries < 0 ∧
    CheckWithRetryContextC { ep0 with retries := -1 } quietOracle =
      ({ name := "", url := "", healthy := false, statusCode := none,
         latency := 0, error := none }, 0) :=
  ⟨by decide, C10_negative_retries { ep0 with retries := -1 } quietOracle (by decide)⟩

/-- The first healthy attempt index lies in the searched window. -/
theorem firstHealthyFrom_bounds (ep : Endpoint) (o : RetryOracle) :
    ∀ fuel i k, firstHealthyFrom ep o i fuel = some k → i ≤ k ∧ k < i + fuel := by
  intro fuel
  induction fuel with
  | zero => intro i k h; exact absurd h (by simp [firstHealthyFrom])
  | succ f ih =>
    intro i k h
    rw [firstHealthyFrom] at h
    by_cases hh : (CheckWithContext ep (o.outcome i)).healthy
    · simp only [hh, if_true] at h
      cases h
      omega
    · simp only [hh, Bool.false_eq_true, if_false] at h
      have := ih (i + 1) k h
      omega

/-- Under an uncancelled context the retry loop returns the first healthy
attempt's Result (having probed up to and including it), or, when no
attempt in the window is healthy, the last attempt's Result with the full
number of probes; with no fuel it returns `prev` untouched. -/
theorem retryLoop_nocancel (ep : Endpoint) (o : RetryOracle)
    (hb : ∀ i, o.cancelledBefore i = false)
    (hw : ∀ i, o.cancelledDuringWait i = false) :
    ∀ fuel i prev,
      retryLoop ep o prev i fuel =
        match firstHealthyFrom ep o i fuel with
        | some k => (CheckWithContext ep (o.outcome k), k - i + 1)
        | none =>
          match fuel with
          | 0 => (prev, 0)
          | f + 1 => (CheckWithContext ep (o.outcome (i + f)), f + 1) := by
  intro fuel
  induction fuel with
  | zero => intro i prev; simp [retryLoop, firstHealthyFrom]
  | succ f ih =>
    intro i prev
    rw [retryLoop, firstHealthyFrom]
    simp only [hb i, Bool.false_eq_true, if_false]
    by_cases hh : (CheckWithContext ep (o.outcome i)).healthy
    · simp [hh]
    · simp only [hh, Bool.false_eq_true, if_false]
      cases f with
      | zero => simp [firstHealthyFrom]
      | succ f' =>
        simp only [hw i, Bool.false_eq_true, if_false]
        rw [ih (i + 1) (CheckWithContext ep (o.outcome i))]
        cases hfh : firstHealthyFrom ep o (i + 1) (f' + 1) with
        | some k =>
          have hk := firstHealthyFrom_bounds ep o (f' + 1) (i + 1) k hfh
          simp only [Prod.mk.injEq]
          exact ⟨trivial, by omega⟩
        | none =>
          simp only [Prod.mk.injEq]
          exact ⟨by rw [show i + 1 + f' = i + (f' + 1) from by omega], trivial⟩

/-- C3: with non-negative retries and an uncancelled context the retry loop
probes at most retries + 1 times; it returns the first healthy attempt's
Result having probed exactly up to it (first healthy attempt index k means
k + 1 probes), and when every attempt in the window fails it returns the
last attempt's Result unchanged after exactly retries + 1 probes. -/
theorem C3_retry_first_healthy (ep : Endpoint) (o : RetryOracle)
    (h0 : 0 ≤ ep.retries)
    (hb : ∀ i, o.cancelledBefore i = false)
    (hw : ∀ i, o.cancelledDuringWait i = false) :
    (CheckWithRetryContextC ep o).2 ≤ (ep.retries + 1).toNat ∧
    CheckWithRetryContextC ep o =
      (match firstHealthyFrom ep o 0 (ep.retries + 1).toNat with
       | some k => (CheckWithContext ep (o.outcome k), k + 1)
       | none =>
         (CheckWithContext ep (o.outcome ((ep.retries + 1).toNat - 1)),
          (ep.retries + 1).toNat)) := by
  obtain ⟨f, hf⟩ : ∃ f, (ep.retries + 1).toNat = f + 1 := ⟨ep.retries.toNat, by omega⟩
  unfold CheckWithRetryContextC
  rw [hf, retryLoop_nocancel ep o hb hw]
  cases hfh : firstHealthyFrom ep o 0 (f + 1) with
  | some k =>
    have hk := firstHealthyFrom_bounds ep o (f + 1) 0 k hfh
    refine ⟨?_, ?_⟩
    · show k - 0 + 1 ≤ f + 1
      omega
    · show (CheckWithContext ep (o.outcome k), k - 0 + 1)
        = (CheckWithContext ep (o.outcome k), k + 1)
      rw [Nat.sub_zero]
  | none =>
    refine ⟨?_, ?_⟩
    · show f + 1 ≤ f + 1
      exact Nat.le_refl _
    · show (CheckWithContext ep (o.outcome (0 + f)), f + 1)
        = (CheckWithContext ep (o.outcome (f + 1 - 1)), f + 1)
      rw [show (0 : Nat) + f = f + 1 - 1 from by omega]

/-- Witness for C3: a three-attempt endpoint whose first attempt already
succeeds. -/
theorem C3_retry_first_healthy_witness :
    (CheckWithRetryContextC ep3 quietOracle).2 ≤ (ep3.retries + 1).toNat ∧
    CheckWithRetryContextC ep3 quietOracle =
      (match firstHealthyFrom ep3 quietOracle 0 (ep3.retries + 1).toNat with
       | some k => (CheckWithContext ep3 (quietOracle.outcome k), k + 1)
       | none =>
         (CheckWithContext ep3 (quietOracle.outcome ((ep3.retries + 1).toNat - 1)),
          (ep3.retries + 1).toNat)) :=
  C3_retry_first_healthy ep3 quietOracle (by decide) (fun _ => rfl) (fun _ => rfl)

/-- A retry loop with non-negative retries that observes cancellation at
its first pre-attempt check returns the zero-value Result overwritten with
the raw context error, having performed no probe attempt. -/
theorem CheckWithRetryContextC_precancel (ep : Endpoint) (o : RetryOracle)
    (hb : o.cancelledBefore 0 = true) (h0 : 0 ≤ ep.retries) :
    CheckWithRetryContextC ep o = ({ error := some o.ctxErr }, 0) := by
  obtain ⟨f, hf⟩ : ∃ f, (ep.retries + 1).toNat = f + 1 := ⟨ep.retries.toNat, by omega⟩
  unfold CheckWithRetryContextC
  rw [hf, retryLoop]
  simp [hb]

/-- C1 counterexample: with the parent context cancelled before a task's
first attempt (the retry loop's pre-attempt check fires at iteration 0),
the stored Result is the zero-value Result with the context error, whose
URL is the empty string, so results[0].url differs from endpoints[0].url. -/
theorem C1_counterexample :
    (CheckAllWithContext [ep0] schedPreCancel 0 0).results.map (fun r => r.url)
        ≠ [ep0].map (fun e => e.url) := by
  intro h
  have : ("" : String) = "http://a" := List.singleton_injective h
  exact absurd this (by decide)

/-- C1 amended: the batch always returns exactly one Result per input
endpoint, collected at its original index regardless of completion order;
for each individual task i that either observed cancellation at the
semaphore wait or performed at least one probe attempt (non-negative
retries, no cancellation observed before the first attempt),
results[i].url equals endpoints[i].url; and a task admitted past the
semaphore whose retry loop observes cancellation at its very first
pre-attempt check (with non-negative retries) stores the zero-value Result
overwritten with the raw context error, whose URL is the empty string. -/
theorem C1_order_amended (endpoints : List Endpoint) (sched : Nat → TaskOracle)
    (t0 d : Nat) :
    (CheckAllWithContext endpoints sched t0 d).results.length = endpoints.length ∧
    (∀ i (hi : i < endpoints.length),
      preservesURL (endpoints.get ⟨i, hi⟩) (sched i) →
      ((CheckAllWithContext endpoints sched t0 d).results.map (fun r => r.url)).get? i
        = some (endpoints.get ⟨i, hi⟩).url) ∧
    (∀ i (hi : i < endpoints.length),
      (sched i).cancelledAtSem = false →
      (sched i).retry.cancelledBefore 0 = true →
      0 ≤ (endpoints.get ⟨i, hi⟩).retries →
      (CheckAllWithContext endpoints sched t0 d).results.get? i
        = some { name := "", url := "", healthy := false, statusCode := none,
                 latency := 0, error := some (sched i).retry.ctxErr }) := by
  refine ⟨by simp [CheckAllWithContext], ?_, ?_⟩
  · intro i hi hp
    have hl : i <
        ((CheckAllWithContext endpoints sched t0 d).results.map (fun r => r.url)).length := by
      simpa [CheckAllWithContext] using hi
    rw [List.get?_eq_get hl]
    congr 1
    simp only [List.get_eq_getElem, List.getElem_map, CheckAllWithContext,
      List.getElem_enum]
    exact taskResult_url _ _ (by simpa [List.get_eq_getElem] using hp)
  · intro i hi hs hb h0
    have hl : i < (CheckAllWithContext endpoints sched t0 d).results.length := by
      simpa [CheckAllWithContext] using hi
    rw [List.get?_eq_get hl]
    congr 1
    simp only [List.get_eq_getElem, CheckAllWithContext, List.getElem_map,
      List.getElem_enum]
    unfold taskResult taskResultC
    rw [if_neg (by simp [hs]),
      CheckWithRetryContextC_precancel _ _ hb (by simpa [List.get_eq_getElem] using h0)]

/-- C4 counterexample: a task cancelled while waiting for its admission
slot stores the raw context error "context canceled", not the classifier's
"request canceled: ..." category, refuting the claim that every
not-yet-finished Result carries the "request canceled" classification. -/
theorem C4_counterexample :
    (CheckAllWithContext [ep0] schedSemCancel 0 0).results.map (fun r => r.error)
        = [some "context canceled"] ∧
    categorizeError "context canceled" = "request canceled: context canceled" ∧
    (CheckAllWithContext [ep0] schedSemCancel 0 0).results.map (fun r => r.error)
        ≠ [some (categorizeError "context canceled")] := by
  refine ⟨rfl, by decide, ?_⟩
  intro h
  rw [show categorizeError "context canceled" = "request canceled: context canceled"
      from by decide] at h
  have := Option.some.inj (List.singleton_injective h)
  exact absurd this (by decide)

/-- C4 amended: a task cancelled at the semaphore wait stores an unhealthy
Result carrying its endpoint's name and URL and the raw context error,
without any probe attempt; a task whose retry loop sees cancellation at its
first pre-attempt check stores the zero-value Result with the raw context
error and no probe attempt.  Only cancellation surfacing through the HTTP
transport is classified as "request canceled: ...".  (Promptness of the
batch return is a real-time property outside this model.) -/
theorem C4_cancellation_amended (ep : Endpoint) (t : TaskOracle) (o : RetryOracle)
    (hs : t.cancelledAtSem = true) (hb : o.cancelledBefore 0 = true)
    (h0 : 0 ≤ ep.retries) :
    taskResultC ep t =
      ({ name := ep.name, url := ep.url, error := some t.retry.ctxErr }, 0) ∧
    (taskResult ep t).healthy = false ∧
    CheckWithRetryContextC ep o = ({ error := some o.ctxErr }, 0) := by
  exact ⟨by simp [taskResultC, hs], by simp [taskResult, taskResultC, hs],
    CheckWithRetryContextC_precancel ep o hb h0⟩

/-- Witness for C4's amended statement at a concrete endpoint. -/
theorem C4_cancellation_amended_witness :
    taskResultC ep0 { cancelledAtSem := true, retry := quietOracle } =
      ({ name := ep0.name, url := ep0.url,
         error := some ({ cancelledAtSem := true,
                          retry := quietOracle : TaskOracle }).retry.ctxErr }, 0) ∧
    (taskResult ep0 { cancelledAtSem := true, retry := quietOracle }).healthy = false ∧
    CheckWithRetryContextC ep0 cancelAllOracle =
      ({ error := some cancelAllOracle.ctxErr }, 0) :=
  C4_cancellation_amended ep0 { cancelledAtSem := true, retry := quietOracle }
    cancelAllOracle rfl rfl (by decide)

/-- Every generated cache key is one of the four possible key strings. -/
theorem getClientKey_mem (a b : Bool) : getClientKey a b ∈ allClientKeys := by
  cases a <;> cases b <;> decide

/-- A failed cache lookup means the key is absent. -/
theorem lookupClient_none (st : List (String × GoClient)) (key : String)
    (h : lookupClient st key = none) : key ∉ st.map Prod.fst := by
  induction st with
  | nil => simp
  | cons p rest ih =>
    cases p with
    | mk k c =>
      rw [lookupClient] at h
      by_cases hk : k = key
      · rw [if_pos hk] at h
        cases h
      · rw [if_neg hk] at h
        simp only [List.map_cons, List.mem_cons]
        rintro (h' | h')
        · exact hk h'.symm
        · exact ih h h'

/-- `getClient` preserves cache well-formedness. -/
theorem CacheWF_getClient (st : List (String × GoClient)) (ep : Endpoint)
    (h : CacheWF st) : CacheWF (getClient st ep).2 := by
  simp only [getClient]
  cases hl : lookupClient st (getClientKey ep.insecure ep.followRedirects) with
  | some c => exact h
  | none =>
    constructor
    · simp only [List.map_cons, List.nodup_cons]
      exact ⟨lookupClient_none st _ hl, h.1⟩
    · intro k hk
      simp only [List.map_cons, List.mem_cons] at hk
      rcases hk with hk | hk
      · exact hk ▸ getClientKey_mem ep.insecure ep.followRedirects
      · exact h.2 k hk

/-- Any sequence of `getClient` calls preserves cache well-formedness. -/
theorem CacheWF_runClients :
    ∀ (eps : List Endpoint) (st : List (String × GoClient)),
      CacheWF st → CacheWF (runClients eps st) := by
  intro eps
  induction eps with
  | nil => intro st h; exact h
  | cons ep rest ih => intro st h; exact ih _ (CacheWF_getClient st ep h)

/-- A well-formed cache has at most 4 entries. -/
theorem CacheWF_length (st : List (String × GoClient)) (h : CacheWF st) :
    st.length ≤ 4 := by
  have h1 : st.length = (st.map Prod.fst).length := (List.length_map _ _).symm
  have h2 : (st.map Prod.fst).toFinset.card = (st.map Prod.fst).length :=
    List.toFinset_card_of_nodup h.1
  have h3 : (st.map Prod.fst).toFinset ⊆ allClientKeys.toFinset := by
    intro x hx
    rw [List.mem_toFinset] at hx ⊢
    exact h.2 x hx
  have h4 := Finset.card_le_card h3
  have h5 : allClientKeys.toFinset.card ≤ allClientKeys.length :=
    allClientKeys.toFinset_card_le
  have h6 : allClientKeys.length = 4 := rfl
  omega

/-- A cached entry survives any further `getClient` call. -/
theorem lookupClient_getClient (st : List (String × GoClient)) (ep : Endpoint)
    (key : String) (c : GoClient) (h : lookupClient st key = some c) :
    lookupClient (getClient st ep).2 key = some c := by
  simp only [getClient]
  cases hl : lookupClient st (getClientKey ep.insecure ep.followRedirects) with
  | some c' => exact h
  | none =>
    show lookupClient
        ((getClientKey ep.insecure ep.followRedirects, mkClient ep) :: st) key = some c
    rw [lookupClient]
    by_cases hk : getClientKey ep.insecure ep.followRedirects = key
    · rw [hk, h] at hl
      cases hl
    · rw [if_neg hk]
      exact h

/-- A cached entry survives any further sequence of `getClient` calls. -/
theorem lookupClient_runClients :
    ∀ (eps : List Endpoint) (st : List (String × GoClient)) (key : String) (c : GoClient),
      lookupClient st key = some c →
      lookupClient (runClients eps st) key = some c := by
  intro eps
  induction eps with
  | nil => intro st key c h; exact h
  | cons ep rest ih =>
    intro st key c h
    exact ih _ key c (lookupClient_getClient st ep key c h)

/-- C8: starting from the empty cache any call sequence leaves at most 4
entries; a call whose key is cached returns that client with the cache
unchanged; and a cached client is still found under its key after any
further sequence of calls (entries are never replaced or removed). -/
theorem C8_transport_cache (eps : List Endpoint) :
    (runClients eps []).length ≤ 4 ∧
    (∀ st ep c,
      lookupClient st (getClientKey ep.insecure ep.followRedirects) = some c →
      getClient st ep = (c, st)) ∧
    (∀ eps2 st key c, lookupClient st key = some c →
      lookupClient (runClients eps2 st) key = some c) := by
  refine ⟨CacheWF_length _ (CacheWF_runClients eps [] ⟨List.nodup_nil, by simp⟩), ?_, ?_⟩
  · intro st ep c h
    simp only [getClient]
    rw [h]
  · intro eps2 st key c h
    exact lookupClient_runClients eps2 st key c h

end HC
